import Mathlib

/-!
Shallow embedding of the charity-compliance-tracker query and aggregation
engine (the record model, filter engine, sorter, paginator, sanctions
matcher and analytics aggregator from `src/lib/policies.ts` and the two
API routes), together with theorems settling the frozen claims about it.

JavaScript strings are modelled as Lean `String`; all character-level
operations (lowercasing, substring tests, code-unit lexicographic
comparison) are defined over `String.data : List Char`, which matches the
JS semantics for the BMP code points the data uses.  JS `Array` values are
`List`; absent (`undefined`) optional fields are `Option.none`.
-/

/-- The `Regulator` enum from `src/types/policy.ts` (nine issuing bodies). -/
inductive Regulator where
  | CC | ICO | OFSI | HSE | HMRC | FR | OSCR | CCNI | ASA
deriving DecidableEq

/-- The `ComplianceDomain` enum from `src/types/policy.ts`. -/
inductive ComplianceDomain where
  | governance | safeguarding | gdpr | health_safety
  | financial_reporting | risk_management | anti_fraud | sanctions
deriving DecidableEq

/-- The `DocumentType` enum from `src/types/policy.ts`. -/
inductive DocumentType where
  | guidance | caseDoc | enforcement | regulation | alert | sanction
deriving DecidableEq

/-- The `risk_level` union type `low | medium | high | critical`. -/
inductive RiskLevel where
  | low | medium | high | critical
deriving DecidableEq

/-- String form of a risk level, for the `===` comparison in the filter. -/
def riskLevelStr : RiskLevel → String
  | .low => "low"
  | .medium => "medium"
  | .high => "high"
  | .critical => "critical"

/-- The normalized `CharityPolicy` record from `src/types/policy.ts`.
`fine_amount` and `cc_latest_income` are JS numbers used by no claim; they
are modelled as integers.  Optional fields absent in a row are `none`. -/
structure CharityPolicy where
  id : String
  title : String
  summary : String
  source_url : String
  published_date : String
  last_updated : String
  regulator : Regulator
  domain : ComplianceDomain
  document_type : DocumentType
  charity_number : Option String := none
  charity_name : Option String := none
  charity_income_band : Option String := none
  risk_level : Option RiskLevel := none
  case_id : Option String := none
  case_status : Option String := none
  outcome : Option String := none
  issues_identified : Option (List String) := none
  sanctions_regime : Option String := none
  designated_by : Option String := none
  fine_amount : Option Int := none
  keywords : Option (List String) := none
  full_text : Option String := none
  cc_registered_number : Option String := none
  cc_suffix : Option String := none
  cc_status : Option String := none
  cc_latest_income : Option Int := none
  cc_governing_document : Option String := none
  cc_primary_region : Option String := none
deriving DecidableEq

/-- A TS field typed `T | T[]`: either a scalar or an array. -/
inductive OneOrMany (α : Type) where
  | one (x : α)
  | many (xs : List α)
deriving DecidableEq

/-- The `Array.isArray` normalization `x : T | T[] ↦ T[]` used by the
filter engine: a scalar becomes a one-element array. -/
def OneOrMany.toList : OneOrMany α → List α
  | .one x => [x]
  | .many xs => xs

/-- The `PolicyFilters` request object from `src/types/policy.ts`.
Each field is optional; `none` is an absent (`undefined`) field. -/
structure PolicyFilters where
  search : Option String := none
  regulator : Option (OneOrMany Regulator) := none
  domain : Option (OneOrMany ComplianceDomain) := none
  document_type : Option (OneOrMany DocumentType) := none
  date_from : Option String := none
  date_to : Option String := none
  has_case_id : Option Bool := none
  risk_level : Option String := none
deriving DecidableEq

/-- Does the char list `l` start with `pre`?  (Char equality by code point.) -/
def listStartsWith : List Char → List Char → Bool
  | [], _ => true
  | _ :: _, [] => false
  | a :: as, b :: bs => a.toNat == b.toNat && listStartsWith as bs

/-- Is `needle` a contiguous substring of `hay`?  Models JS
`String.prototype.includes` at the code-unit level. -/
def listContainsSub (needle : List Char) : List Char → Bool
  | [] => needle.isEmpty
  | c :: cs => listStartsWith needle (c :: cs) || listContainsSub needle cs

/-- JS `hay.includes(needle)`. -/
def jsIncludes (hay needle : String) : Bool :=
  listContainsSub needle.data hay.data

/-- JS `String.prototype.toLowerCase`, restricted to the per-code-point
lowering `Char.toLower` (sufficient for the ASCII data in this system). -/
def jsToLower (s : String) : String :=
  ⟨s.data.map Char.toLower⟩

/-- Code-unit lexicographic `<` on char lists: the JS `<` on strings. -/
def listLexLt : List Char → List Char → Bool
  | [], [] => false
  | [], _ :: _ => true
  | _ :: _, [] => false
  | a :: as, b :: bs => a.toNat < b.toNat || (a.toNat == b.toNat && listLexLt as bs)

/-- JS `a < b` on strings. -/
def jsStrLt (a b : String) : Bool :=
  listLexLt a.data b.data

/-- The text-search predicate of the filter engine (`filterPolicies`,
lines 67-75): the lowercased query must be a substring of the title, the
summary, a truthy `charity_name`, or some keyword (all lowercased). -/
def searchPred (searchLower : String) (p : CharityPolicy) : Bool :=
  jsIncludes (jsToLower p.title) searchLower ||
  jsIncludes (jsToLower p.summary) searchLower ||
  (match p.charity_name with
   | some c => !c.isEmpty && jsIncludes (jsToLower c) searchLower
   | none => false) ||
  (match p.keywords with
   | some ks => ks.any fun k => jsIncludes (jsToLower k) searchLower
   | none => false)

/-- Text-search stage: `if (filters.search) { ... }`.  A missing or empty
(falsy) query imposes no constraint. -/
def searchStage (filters : PolicyFilters) (l : List CharityPolicy) : List CharityPolicy :=
  match filters.search with
  | some s => if s.isEmpty then l else l.filter (searchPred (jsToLower s))
  | none => l

/-- Regulator facet stage: membership in the normalized value list. -/
def regulatorStage (filters : PolicyFilters) (l : List CharityPolicy) : List CharityPolicy :=
  match filters.regulator with
  | some v => l.filter fun p => v.toList.contains p.regulator
  | none => l

/-- Domain facet stage. -/
def domainStage (filters : PolicyFilters) (l : List CharityPolicy) : List CharityPolicy :=
  match filters.domain with
  | some v => l.filter fun p => v.toList.contains p.domain
  | none => l

/-- Document-type facet stage. -/
def typeStage (filters : PolicyFilters) (l : List CharityPolicy) : List CharityPolicy :=
  match filters.document_type with
  | some v => l.filter fun p => v.toList.contains p.document_type
  | none => l

/-- Lower date bound: `p.published_date >= filters.date_from` (JS string
`>=` is the negation of code-unit `<`).  An empty bound is falsy. -/
def dateFromStage (filters : PolicyFilters) (l : List CharityPolicy) : List CharityPolicy :=
  match filters.date_from with
  | some d => if d.isEmpty then l else l.filter fun p => !(jsStrLt p.published_date d)
  | none => l

/-- Upper date bound: `p.published_date <= filters.date_to`. -/
def dateToStage (filters : PolicyFilters) (l : List CharityPolicy) : List CharityPolicy :=
  match filters.date_to with
  | some d => if d.isEmpty then l else l.filter fun p => !(jsStrLt d p.published_date)
  | none => l

/-- The has-case-identity predicate (`filterPolicies`, lines 110-117):
a truthy `case_id` OR `document_type` of `case` or `enforcement`. -/
def hasCaseIdentity (p : CharityPolicy) : Bool :=
  (match p.case_id with
   | some c => !c.isEmpty
   | none => false) ||
  p.document_type == .caseDoc || p.document_type == .enforcement

/-- Cases-only stage: active only when `has_case_id` is (truthily) `true`. -/
def caseStage (filters : PolicyFilters) (l : List CharityPolicy) : List CharityPolicy :=
  match filters.has_case_id with
  | some b => if b then l.filter hasCaseIdentity else l
  | none => l

/-- Risk-level stage: strict `===` against the string form of the record's
risk level; an empty filter string is falsy and imposes no constraint. -/
def riskStage (filters : PolicyFilters) (l : List CharityPolicy) : List CharityPolicy :=
  match filters.risk_level with
  | some s =>
      if s.isEmpty then l
      else l.filter fun p =>
        match p.risk_level with
        | some rl => riskLevelStr rl == s
        | none => false
  | none => l

/-- `filterPolicies` (`src/unnamed/part_000`, lines 60-125): the stages
applied in source order — search, regulator, domain, document type,
date-from, date-to, cases-only, risk level. -/
def filterPolicies (policies : List CharityPolicy) (filters : PolicyFilters) : List CharityPolicy :=
  riskStage filters
    (caseStage filters
      (dateToStage filters
        (dateFromStage filters
          (typeStage filters
            (domainStage filters
              (regulatorStage filters
                (searchStage filters policies)))))))

/-- Boolean condition equivalent to `searchStage` keeping `p`. -/
def searchCond (filters : PolicyFilters) (p : CharityPolicy) : Bool :=
  match filters.search with
  | some s => if s.isEmpty then true else searchPred (jsToLower s) p
  | none => true

/-- Boolean condition equivalent to `regulatorStage` keeping `p`. -/
def regulatorCond (filters : PolicyFilters) (p : CharityPolicy) : Bool :=
  match filters.regulator with
  | some v => v.toList.contains p.regulator
  | none => true

/-- Boolean condition equivalent to `domainStage` keeping `p`. -/
def domainCond (filters : PolicyFilters) (p : CharityPolicy) : Bool :=
  match filters.domain with
  | some v => v.toList.contains p.domain
  | none => true

/-- Boolean condition equivalent to `typeStage` keeping `p`. -/
def typeCond (filters : PolicyFilters) (p : CharityPolicy) : Bool :=
  match filters.document_type with
  | some v => v.toList.contains p.document_type
  | none => true

/-- Boolean condition equivalent to `dateFromStage` keeping `p`. -/
def dateFromCond (filters : PolicyFilters) (p : CharityPolicy) : Bool :=
  match filters.date_from with
  | some d => if d.isEmpty then true else !(jsStrLt p.published_date d)
  | none => true

/-- Boolean condition equivalent to `dateToStage` keeping `p`. -/
def dateToCond (filters : PolicyFilters) (p : CharityPolicy) : Bool :=
  match filters.date_to with
  | some d => if d.isEmpty then true else !(jsStrLt d p.published_date)
  | none => true

/-- Boolean condition equivalent to `caseStage` keeping `p`. -/
def caseCond (filters : PolicyFilters) (p : CharityPolicy) : Bool :=
  match filters.has_case_id with
  | some b => if b then hasCaseIdentity p else true
  | none => true

/-- Boolean condition equivalent to `riskStage` keeping `p`. -/
def riskCond (filters : PolicyFilters) (p : CharityPolicy) : Bool :=
  match filters.risk_level with
  | some s =>
      if s.isEmpty then true
      else
        match p.risk_level with
        | some rl => riskLevelStr rl == s
        | none => false
  | none => true

/-- The conjunction of all facet conditions: `filterPolicies` equals a
single `List.filter` by this predicate (`filterPolicies_eq_filter`). -/
def specPred (filters : PolicyFilters) (p : CharityPolicy) : Bool :=
  riskCond filters p &&
    (caseCond filters p &&
      (dateToCond filters p &&
        (dateFromCond filters p &&
          (typeCond filters p &&
            (domainCond filters p &&
              (regulatorCond filters p && searchCond filters p))))))

/-- Sort fields supported by `sortPolicies`. -/
inductive SortField where
  | published_date | last_updated | title
deriving DecidableEq

/-- Sort directions supported by `sortPolicies`. -/
inductive SortOrder where
  | asc | desc
deriving DecidableEq

/-- Sign of JS `a.localeCompare(b)`, modelled as code-unit comparison
(exact for the ISO date fields; locale collation of titles is modelled as
code-point order, which no claim depends on). -/
def strCompare (a b : String) : Ordering :=
  if jsStrLt a b then .lt else if jsStrLt b a then .gt else .eq

/-- The field comparison of `sortPolicies` (lines 135-142). -/
def fieldCompare (sortBy : SortField) (a b : CharityPolicy) : Ordering :=
  match sortBy with
  | .title => strCompare a.title b.title
  | .published_date => strCompare a.published_date b.published_date
  | .last_updated => strCompare a.last_updated b.last_updated

/-- The full comparator: `order === 'desc' ? -comparison : comparison`. -/
def sortComparator (sortBy : SortField) (ord : SortOrder) (a b : CharityPolicy) : Ordering :=
  match ord with
  | .desc => (fieldCompare sortBy a b).swap
  | .asc => fieldCompare sortBy a b

/-- Insert `x` into `l` before the first element `y` with `le x y`;
the building block of the stable insertion sort. -/
def stInsert (le : α → α → Bool) (x : α) : List α → List α
  | [] => [x]
  | y :: ys => if le x y then x :: y :: ys else y :: stInsert le x ys

/-- Stable insertion sort: for a consistent comparator this is the unique
stable sorted permutation, which is what ES2019 `Array.prototype.sort`
returns.  `le a b` means `a` may come before `b`. -/
def stSort (le : α → α → Bool) : List α → List α
  | [] => []
  | x :: xs => stInsert le x (stSort le xs)

/-- `sortPolicies` (`src/unnamed/part_000`, lines 130-146): a stable sort
by the comparator, placing `a` before `b` when the comparator does not
return a positive value. -/
def sortPolicies (policies : List CharityPolicy) (sortBy : SortField) (ord : SortOrder) :
    List CharityPolicy :=
  stSort (fun a b => sortComparator sortBy ord a b != .gt) policies

/-- ECMAScript `Array.prototype.slice(start, end)` for integer arguments:
negative indices count from the end of the array, then the window is
clamped to `[0, length]`. -/
def jsSlice (l : List α) (start stop : Int) : List α :=
  let len : Int := l.length
  let s := if start < 0 then max (len + start) 0 else min start len
  let e := if stop < 0 then max (len + stop) 0 else min stop len
  (l.take e.toNat).drop s.toNat

/-- The value returned by `paginatePolicies`. -/
structure PageResult where
  data : List CharityPolicy
  total : Nat
  page : Int
  totalPages : Int
deriving DecidableEq

/-- `Math.ceil (a / b)` for an integer numerator and positive integer
denominator, the only regime `paginatePolicies` is specified for. -/
def jsCeilDiv (a b : Int) : Int :=
  -((-a).ediv b)

/-- `paginatePolicies` (`src/unnamed/part_000`, lines 151-162):
`start = (page-1)*perPage`, a JS slice of one page, plus metadata. -/
def paginatePolicies (policies : List CharityPolicy) (page perPage : Int) : PageResult :=
  let total := policies.length
  let totalPages := jsCeilDiv total perPage
  let start := (page - 1) * perPage
  { data := jsSlice policies start (start + perPage)
    total := total
    page := page
    totalPages := totalPages }

/-- The projected public shape of one sanctions search hit
(`src/app/api/sanctions/route.ts`, lines 43-50). -/
structure SanctionHit where
  id : String
  name : String
  regime : Option String
  designated_by : Option String
  listed_date : String
  source_url : String
deriving DecidableEq

/-- The JSON body of a (non-error) sanctions search response.  The two
return sites of the route build objects with different key sets; a key a
site omits is `none`. -/
structure SanctionsResponse where
  success : Bool
  query : Option String
  count : Option Nat
  data : List SanctionHit
  warning : Option String
  message : Option String
deriving DecidableEq

/-- The response of the too-short guard (route lines 16-21): `success`,
empty `data`, an informational `message` — no `query`, `count` or
`warning` keys. -/
def tooShortResponse : SanctionsResponse :=
  { success := true
    query := none
    count := none
    data := []
    warning := none
    message := some "Provide at least 2 characters to search" }

/-- Name matching of the sanctions route (lines 30-33): lowercased
substring of the title, or of a truthy summary. -/
def sanctionsNameMatch (nameLower : String) (s : CharityPolicy) : Bool :=
  jsIncludes (jsToLower s.title) nameLower ||
  (!s.summary.isEmpty && jsIncludes (jsToLower s.summary) nameLower)

/-- Regime matching (route lines 36-40): optional chaining on
`sanctions_regime` — an absent regime never matches. -/
def sanctionsRegimeMatch (regime : String) (s : CharityPolicy) : Bool :=
  match s.sanctions_regime with
  | some r => jsIncludes (jsToLower r) (jsToLower regime)
  | none => false

/-- The matching pipeline of the sanctions route (lines 24-40): restrict
to the sanctions domain, match the name, then the (truthy) regime. -/
def matchingSanctions (l : List CharityPolicy) (name : String) (regime : Option String) :
    List CharityPolicy :=
  let sanctions := l.filter fun p => p.domain == .sanctions
  let found := sanctions.filter (sanctionsNameMatch (jsToLower name))
  match regime with
  | some rg => if rg.isEmpty then found else found.filter (sanctionsRegimeMatch rg)
  | none => found

/-- Replace the first occurrence of `pat` in a char list, JS
`String.prototype.replace` with a string pattern. -/
def replaceFirstAux (pat rep : List Char) : List Char → List Char
  | [] => []
  | c :: cs =>
      if listStartsWith pat (c :: cs) then rep ++ (c :: cs).drop pat.length
      else c :: replaceFirstAux pat rep cs

/-- JS `s.replace(pat, rep)` for a string `pat`: first occurrence only. -/
def jsReplaceFirst (s pat rep : String) : String :=
  if pat.isEmpty then ⟨rep.data ++ s.data⟩ else ⟨replaceFirstAux pat.data rep.data s.data⟩

/-- Projection of a matching record into the public hit shape; `name`
strips the literal label from the title (route lines 43-50). -/
def projectHit (m : CharityPolicy) : SanctionHit :=
  { id := m.id
    name := jsReplaceFirst m.title "Sanctions: " ""
    regime := m.sanctions_regime
    designated_by := m.designated_by
    listed_date := m.published_date
    source_url := m.source_url }

/-- `GET /api/sanctions` (`src/app/api/sanctions/route.ts`): the guard
fires on an absent or under-2-character query before any matching; the
full path reports the uncapped `count` but caps `data` at 50 entries and
attaches the advisory only when something was found. -/
def searchSanctions (l : List CharityPolicy) (name : Option String) (regime : Option String) :
    SanctionsResponse :=
  match name with
  | none => tooShortResponse
  | some nm =>
      if nm.length < 2 then tooShortResponse
      else
        let results := (matchingSanctions l nm regime).map projectHit
        { success := true
          query := some nm
          count := some results.length
          data := results.take 50
          warning :=
            if results.length == 0 then none
            else some "This is for information only. Always verify against the official OFSI list."
          message := none }

/-- The regulator keys the analytics route actually pre-seeds
(`src/unnamed/part_001`, lines 12-14): three of the nine enum values
(`OSCR`, `CCNI`, `ASA`) are missing. -/
def seededRegulators : List Regulator :=
  [.CC, .ICO, .OFSI, .HSE, .HMRC, .FR]

/-- All nine regulator enum values, in declaration order. -/
def allRegulators : List Regulator :=
  [.CC, .ICO, .OFSI, .HSE, .HMRC, .FR, .OSCR, .CCNI, .ASA]

/-- The initial `byRegulator` object: a partial map with an entry (zero)
for exactly the seeded keys. -/
def byRegulatorInit : Regulator → Option Nat := fun r =>
  if r ∈ seededRegulators then some 0 else none

/-- One loop iteration (route lines 50-52):
`if (p.regulator in byRegulator) byRegulator[p.regulator]++`. -/
def regStep (m : Regulator → Option Nat) (p : CharityPolicy) : Regulator → Option Nat :=
  match m p.regulator with
  | some n => fun r => if r = p.regulator then some (n + 1) else m r
  | none => m

/-- The per-regulator counts computed by the analytics route. -/
def computeByRegulator (policies : List CharityPolicy) : Regulator → Option Nat :=
  policies.foldl regStep byRegulatorInit

/-- Sum of the values present in the per-regulator count object. -/
def regCountSum (m : Regulator → Option Nat) : Nat :=
  (allRegulators.map fun r => (m r).getD 0).sum

/-- `Math.max` over a non-empty spread, as the analytics route uses it. -/
def maxTimes (x : Int) (xs : List Int) : Int :=
  xs.foldl max x

/-- The `summary.last_updated` computation of the analytics route (lines
81-83): the maximal `getTime` over all records, or `null` for an empty
set.  `getTime` abstracts `new Date(s).getTime()`; the theorems hold for
every such timestamp function. -/
def summaryLastUpdated (getTime : String → Int) : List CharityPolicy → Option Int
  | [] => none
  | p :: ps => some (maxTimes (getTime p.last_updated) (ps.map fun q => getTime q.last_updated))

/-- `a` may precede `b` in an ascending sort of keys: `¬(key b < key a)`. -/
def ascLE (lt : K → K → Bool) (key : α → K) (a b : α) : Bool :=
  !lt (key b) (key a)

/-- `a` may precede `b` in a descending sort of keys: `¬(key a < key b)`. -/
def descLE (lt : K → K → Bool) (key : α → K) (a b : α) : Bool :=
  !lt (key a) (key b)

/-- A boolean strict total order, the laws JS string `<` satisfies. -/
structure LtSpec (K : Type) (lt : K → K → Bool) : Prop where
  irrefl : ∀ a, lt a a = false
  asymm : ∀ a b, lt a b = true → lt b a = false
  conn : ∀ a b, lt a b = false → lt b a = false → a = b
  ltTrans : ∀ a b c, lt a b = true → lt b c = true → lt a c = true

/-- A baseline record for concrete test inputs. -/
def recBase : CharityPolicy :=
  { id := "r0"
    title := "Annual guidance"
    summary := "s"
    source_url := "u"
    published_date := "2024-01-01"
    last_updated := "2024-01-02"
    regulator := .CC
    domain := .governance
    document_type := .guidance }

/-- A record issued by the Scottish regulator, one of the unseeded keys. -/
def recOSCR : CharityPolicy :=
  { recBase with id := "r-oscr", regulator := .OSCR }

/-- Two records tied on `published_date` (ids differ). -/
def recTieA : CharityPolicy :=
  { recBase with id := "a" }

/-- Second record of the tie. -/
def recTieB : CharityPolicy :=
  { recBase with id := "b" }

/-- Records with pairwise distinct `published_date`s. -/
def recD1 : CharityPolicy :=
  { recBase with id := "d1", published_date := "2024-01-03" }

/-- Second distinct-date record. -/
def recD2 : CharityPolicy :=
  { recBase with id := "d2", published_date := "2024-01-04" }

/-- A sanctions-domain record matching the query string "ab". -/
def recSanc : CharityPolicy :=
  { recBase with
      id := "sx"
      domain := .sanctions
      title := "Sanctions: Ab"
      summary := "ab entry"
      sanctions_regime := some "Russia" }

/-- A record carrying a case identifier. -/
def recCase : CharityPolicy :=
  { recBase with id := "c1", case_id := some "CASE-1" }

/-- A filter spec with only the cases-only flag set. -/
def fsFlag : PolicyFilters :=
  { has_case_id := some true }

/-- A filter spec carrying a present-but-empty regulator facet. -/
def fsEmptyReg : PolicyFilters :=
  { regulator := some (.many []) }

/-- A concrete timestamp function for witnesses (`summaryLastUpdated` is
proved for every timestamp function). -/
def timeLen : String → Int := fun s => (s.data.length : Int)

theorem charNat_inj {a b : Char} (h : a.toNat = b.toNat) : a = b :=
  Char.eq_of_val_eq (UInt32.toNat.inj h)

/-- Trichotomy of the code-unit lexicographic comparison. -/
theorem listLexLt_cases : ∀ l m : List Char,
    (listLexLt l m = true ∧ listLexLt m l = false ∧ l ≠ m) ∨
    (listLexLt l m = false ∧ listLexLt m l = false ∧ l = m) ∨
    (listLexLt l m = false ∧ listLexLt m l = true ∧ l ≠ m) := by
  intro l
  induction l with
  | nil =>
    intro m
    cases m with
    | nil => right; left; exact ⟨rfl, rfl, rfl⟩
    | cons b bs => left; exact ⟨rfl, rfl, by simp⟩
  | cons a as ih =>
    intro m
    cases m with
    | nil => right; right; exact ⟨rfl, rfl, by simp⟩
    | cons b bs =>
      rcases Nat.lt_trichotomy a.toNat b.toNat with hab | hab | hab
      · left
        refine ⟨by simp [listLexLt, hab], by simp [listLexLt]; omega, ?_⟩
        intro hc
        cases hc
        omega
      · have hab' : a = b := charNat_inj hab
        subst hab'
        rcases ih bs with ⟨h1, h2, h3⟩ | ⟨h1, h2, h3⟩ | ⟨h1, h2, h3⟩
        · left
          refine ⟨by simp [listLexLt, h1], by simp [listLexLt, h2], by simp [h3]⟩
        · right; left
          refine ⟨by simp [listLexLt, h1], by simp [listLexLt, h2], by simp [h3]⟩
        · right; right
          refine ⟨by simp [listLexLt, h1], by simp [listLexLt, h2], by simp [h3]⟩
      · right; right
        refine ⟨by simp [listLexLt]; omega, by simp [listLexLt, hab], ?_⟩
        intro hc
        cases hc
        omega

/-- Transitivity of the code-unit lexicographic comparison. -/
theorem listLexLt_trans : ∀ l m n : List Char,
    listLexLt l m = true → listLexLt m n = true → listLexLt l n = true := by
  intro l
  induction l with
  | nil =>
    intro m n hlm hmn
    cases m with
    | nil => exact hmn
    | cons b bs =>
      cases n with
      | nil => simp [listLexLt] at hmn
      | cons c cs => rfl
  | cons a as ih =>
    intro m n hlm hmn
    cases m with
    | nil => simp [listLexLt] at hlm
    | cons b bs =>
      cases n with
      | nil => simp [listLexLt] at hmn
      | cons c cs =>
        simp only [listLexLt, Bool.or_eq_true, Bool.and_eq_true, decide_eq_true_eq,
          beq_iff_eq] at hlm hmn ⊢
        rcases hlm with hlm | ⟨hlm, hlm'⟩
        · rcases hmn with hmn | ⟨hmn, hmn'⟩
          · left; omega
          · left; omega
        · rcases hmn with hmn | ⟨hmn, hmn'⟩
          · left; omega
          · right; exact ⟨by omega, ih bs cs hlm' hmn'⟩

/-- JS string `<` is a boolean strict total order. -/
theorem jsStrLt_spec : LtSpec String jsStrLt := by
  constructor
  · intro a
    rcases listLexLt_cases a.data a.data with ⟨_, _, h⟩ | ⟨h, _, _⟩ | ⟨_, _, h⟩
    · exact absurd rfl h
    · exact h
    · exact absurd rfl h
  · intro a b h
    rcases listLexLt_cases a.data b.data with ⟨_, h2, _⟩ | ⟨h1, _, _⟩ | ⟨h1, _, _⟩
    · exact h2
    · exact absurd h (by simp [jsStrLt, h1])
    · exact absurd h (by simp [jsStrLt, h1])
  · intro a b h h'
    rcases listLexLt_cases a.data b.data with ⟨h1, _, _⟩ | ⟨_, _, h3⟩ | ⟨_, h2, _⟩
    · exact absurd h1 (by simp [jsStrLt] at h; simp [h])
    · exact congrArg String.mk h3
    · exact absurd h2 (by simp [jsStrLt] at h'; simp [h'])
  · intro a b c h h'
    exact listLexLt_trans a.data b.data c.data h h'

theorem searchStage_eq (fs : PolicyFilters) (l : List CharityPolicy) :
    searchStage fs l = l.filter (searchCond fs) := by
  unfold searchStage searchCond
  cases fs.search with
  | none => exact (List.filter_true l).symm
  | some s =>
    by_cases h : s.isEmpty
    · simp [h, List.filter_true]
    · simp [h]

theorem regulatorStage_eq (fs : PolicyFilters) (l : List CharityPolicy) :
    regulatorStage fs l = l.filter (regulatorCond fs) := by
  unfold regulatorStage regulatorCond
  cases fs.regulator with
  | none => exact (List.filter_true l).symm
  | some v => rfl

theorem domainStage_eq (fs : PolicyFilters) (l : List CharityPolicy) :
    domainStage fs l = l.filter (domainCond fs) := by
  unfold domainStage domainCond
  cases fs.domain with
  | none => exact (List.filter_true l).symm
  | some v => rfl

theorem typeStage_eq (fs : PolicyFilters) (l : List CharityPolicy) :
    typeStage fs l = l.filter (typeCond fs) := by
  unfold typeStage typeCond
  cases fs.document_type with
  | none => exact (List.filter_true l).symm
  | some v => rfl

theorem dateFromStage_eq (fs : PolicyFilters) (l : List CharityPolicy) :
    dateFromStage fs l = l.filter (dateFromCond fs) := by
  unfold dateFromStage dateFromCond
  cases fs.date_from with
  | none => exact (List.filter_true l).symm
  | some d =>
    by_cases h : d.isEmpty
    · simp [h, List.filter_true]
    · simp [h]

theorem dateToStage_eq (fs : PolicyFilters) (l : List CharityPolicy) :
    dateToStage fs l = l.filter (dateToCond fs) := by
  unfold dateToStage dateToCond
  cases fs.date_to with
  | none => exact (List.filter_true l).symm
  | some d =>
    by_cases h : d.isEmpty
    · simp [h, List.filter_true]
    · simp [h]

theorem caseStage_eq (fs : PolicyFilters) (l : List CharityPolicy) :
    caseStage fs l = l.filter (caseCond fs) := by
  unfold caseStage caseCond
  cases fs.has_case_id with
  | none => exact (List.filter_true l).symm
  | some b =>
    cases b
    · simp [List.filter_true]
    · simp

theorem riskStage_eq (fs : PolicyFilters) (l : List CharityPolicy) :
    riskStage fs l = l.filter (riskCond fs) := by
  unfold riskStage riskCond
  cases fs.risk_level with
  | none => exact (List.filter_true l).symm
  | some s =>
    by_cases h : s.isEmpty
    · simp [h, List.filter_true]
    · simp [h]

/-- The filter chain collapses to one `List.filter` by the conjunction of
the facet conditions. -/
theorem filterPolicies_eq_filter (l : List CharityPolicy) (fs : PolicyFilters) :
    filterPolicies l fs = l.filter (specPred fs) := by
  simp only [filterPolicies, searchStage_eq, regulatorStage_eq, domainStage_eq, typeStage_eq,
    dateFromStage_eq, dateToStage_eq, caseStage_eq, riskStage_eq, List.filter_filter]
  rfl

/-- Claim C5: for every record set and every filter spec, applying the
filter engine to its own output with the same spec returns the same
sequence — `filterPolicies` is idempotent. -/
theorem c5_filter_idempotent (l : List CharityPolicy) (fs : PolicyFilters) :
    filterPolicies (filterPolicies l fs) fs = filterPolicies l fs := by
  rw [filterPolicies_eq_filter, filterPolicies_eq_filter, List.filter_filter]
  have h : (fun a => specPred fs a && specPred fs a) = specPred fs :=
    funext fun a => Bool.and_self _
  rw [h]

/-- Claim C10: a present-but-empty multi-value facet (an empty list of
regulators, domains, or document types) filters out every record: the
filter engine returns the empty sequence. -/
theorem c10_empty_facet (l : List CharityPolicy) (fs : PolicyFilters)
    (h : fs.regulator = some (.many []) ∨ fs.domain = some (.many []) ∨
      fs.document_type = some (.many [])) :
    filterPolicies l fs = [] := by
  rw [filterPolicies_eq_filter]
  rw [List.filter_eq_nil_iff]
  intro a _
  rcases h with h | h | h
  · have hc : regulatorCond fs a = false := by
      simp [regulatorCond, h, OneOrMany.toList]
    simp [specPred, hc]
  · have hc : domainCond fs a = false := by
      simp [domainCond, h, OneOrMany.toList]
    simp [specPred, hc]
  · have hc : typeCond fs a = false := by
      simp [typeCond, h, OneOrMany.toList]
    simp [specPred, hc]

/-- Witness for C10 at a concrete record set and filter spec. -/
theorem c10_witness : filterPolicies [recBase] fsEmptyReg = [] :=
  c10_empty_facet [recBase] fsEmptyReg (Or.inl rfl)

/-- Claim C8: when the cases-only flag is set, a record passes the
has-case-identity predicate iff its `case_id` is present or its document
type is `case` or `enforcement` (union of the two signals).  The record
is assumed to respect the data-model invariant that an absent optional
field is `none`, never the empty string. -/
theorem c8_has_case_identity (fs : PolicyFilters) (l : List CharityPolicy) (p : CharityPolicy)
    (hflag : fs.has_case_id = some true) (hinv : p.case_id ≠ some "") :
    p ∈ caseStage fs l ↔
      p ∈ l ∧ (p.case_id.isSome ∨ p.document_type = .caseDoc ∨
        p.document_type = .enforcement) := by
  have hiff : (hasCaseIdentity p = true) ↔
      (p.case_id.isSome ∨ p.document_type = .caseDoc ∨ p.document_type = .enforcement) := by
    unfold hasCaseIdentity
    cases hc : p.case_id with
    | none => simp
    | some c =>
      have hne : c ≠ "" := fun hh => hinv (by rw [hc, hh])
      have hemp : c.isEmpty = false := by
        rcases hb : c.isEmpty with _ | _
        · rfl
        · exact absurd ((String.isEmpty_iff c).mp hb) hne
      simp [hemp]
  simp only [caseStage, hflag, if_true]
  rw [List.mem_filter]
  exact and_congr Iff.rfl hiff

/-- Witness for C8 at a concrete spec and record. -/
theorem c8_witness :
    fsFlag.has_case_id = some true ∧ recCase.case_id ≠ some "" ∧
      (recCase ∈ caseStage fsFlag [recCase] ↔
        recCase ∈ [recCase] ∧ (recCase.case_id.isSome ∨ recCase.document_type = .caseDoc ∨
          recCase.document_type = .enforcement)) :=
  ⟨rfl, by decide, c8_has_case_identity fsFlag [recCase] recCase rfl (by decide)⟩

theorem stInsert_perm (le : α → α → Bool) (x : α) (l : List α) :
    (stInsert le x l).Perm (x :: l) := by
  induction l with
  | nil => exact List.Perm.refl _
  | cons y ys ih =>
    by_cases h : le x y
    · simp [stInsert, h]
    · have h0 : le x y = false := Bool.eq_false_iff.mpr h
      simp only [stInsert, h0, Bool.false_eq_true, if_false]
      exact (ih.cons y).trans (List.Perm.swap x y ys)

theorem stSort_perm (le : α → α → Bool) (l : List α) : (stSort le l).Perm l := by
  induction l with
  | nil => exact List.Perm.refl _
  | cons x xs ih =>
    exact (stInsert_perm le x (stSort le xs)).trans (ih.cons x)

theorem mem_stInsert (le : α → α → Bool) (x z : α) (l : List α) :
    z ∈ stInsert le x l ↔ z = x ∨ z ∈ l := by
  rw [(stInsert_perm le x l).mem_iff, List.mem_cons]

theorem pairwise_stInsert {K : Type} (lt : K → K → Bool) (key : α → K) (hs : LtSpec K lt)
    (x : α) (l : List α) (h : l.Pairwise fun a b => lt (key b) (key a) = false) :
    (stInsert (ascLE lt key) x l).Pairwise fun a b => lt (key b) (key a) = false := by
  induction l with
  | nil => simp [stInsert, hs.irrefl]
  | cons y ys ih =>
    rcases List.pairwise_cons.mp h with ⟨hy, hys⟩
    by_cases hxy : ascLE lt key x y = true
    · have hxy' : lt (key y) (key x) = false := by simpa [ascLE] using hxy
      simp only [stInsert, hxy, if_true]
      refine List.pairwise_cons.mpr ⟨?_, h⟩
      intro z hz
      rcases List.mem_cons.mp hz with rfl | hz
      · exact hxy'
      · cases hzx : lt (key z) (key x) with
        | false => rfl
        | true =>
          exfalso
          cases hxyl : lt (key x) (key y) with
          | false =>
            have heq := hs.conn _ _ hxyl hxy'
            rw [heq] at hzx
            rw [hy z hz] at hzx
            exact Bool.false_ne_true hzx
          | true =>
            have := hs.ltTrans _ _ _ hzx hxyl
            rw [hy z hz] at this
            exact Bool.false_ne_true this
    · have hxy0 : ascLE lt key x y = false := Bool.eq_false_iff.mpr hxy
      have hyx : lt (key y) (key x) = true := by
        have := congrArg (fun b => !b) hxy0
        simpa [ascLE] using hxy0
      simp only [stInsert, hxy0, Bool.false_eq_true, if_false]
      refine List.pairwise_cons.mpr ⟨?_, ih hys⟩
      intro z hz
      rcases (mem_stInsert _ _ _ _).mp hz with rfl | hz
      · exact hs.asymm _ _ hyx
      · exact hy z hz

theorem pairwise_stSort {K : Type} (lt : K → K → Bool) (key : α → K) (hs : LtSpec K lt)
    (l : List α) :
    (stSort (ascLE lt key) l).Pairwise fun a b => lt (key b) (key a) = false := by
  induction l with
  | nil => simp [stSort]
  | cons x xs ih => exact pairwise_stInsert lt key hs x _ ih

theorem stInsert_desc_append {K : Type} (lt : K → K → Bool) (key : α → K) (hs : LtSpec K lt)
    (x y : α) (l : List α) (hyx : lt (key y) (key x) = true) :
    stInsert (descLE lt key) x (l ++ [y]) = stInsert (descLE lt key) x l ++ [y] := by
  induction l with
  | nil =>
    have hd : descLE lt key x y = true := by simp [descLE, hs.asymm _ _ hyx]
    simp [stInsert, hd]
  | cons z zs ih =>
    by_cases hz : descLE lt key x z = true
    · simp [stInsert, hz]
    · have hz0 : descLE lt key x z = false := Bool.eq_false_iff.mpr hz
      simp only [List.cons_append, stInsert, hz0, Bool.false_eq_true, if_false]
      exact congrArg (List.cons z) ih

theorem stInsert_desc_of_gt {K : Type} (lt : K → K → Bool) (key : α → K)
    (x : α) (l : List α) (h : ∀ z ∈ l, lt (key x) (key z) = true) :
    stInsert (descLE lt key) x l = l ++ [x] := by
  induction l with
  | nil => simp [stInsert]
  | cons z zs ih =>
    have hz : descLE lt key x z = false := by
      simp [descLE, h z (List.mem_cons_self z zs)]
    simp only [stInsert, hz, Bool.false_eq_true, if_false, List.cons_append]
    rw [ih fun w hw => h w (List.mem_cons_of_mem z hw)]

theorem rev_stInsert_asc {K : Type} (lt : K → K → Bool) (key : α → K) (hs : LtSpec K lt)
    (x : α) (l : List α)
    (hsort : l.Pairwise fun a b => lt (key b) (key a) = false)
    (hx : key x ∉ l.map key) :
    (stInsert (ascLE lt key) x l).reverse = stInsert (descLE lt key) x l.reverse := by
  induction l with
  | nil => simp [stInsert]
  | cons y ys ih =>
    rcases List.pairwise_cons.mp hsort with ⟨hy, hys⟩
    have hxy_ne : key x ≠ key y := by
      intro hh
      exact hx (by simp [hh])
    have hx_ys : key x ∉ ys.map key := fun hh => hx (by simp [hh])
    by_cases hxy : ascLE lt key x y = true
    · have h1 : lt (key y) (key x) = false := by simpa [ascLE] using hxy
      have h2 : lt (key x) (key y) = true := by
        cases h2 : lt (key x) (key y) with
        | true => rfl
        | false => exact absurd (hs.conn _ _ h2 h1) hxy_ne
      have hall : ∀ z ∈ (y :: ys).reverse, lt (key x) (key z) = true := by
        intro z hz
        rw [List.mem_reverse] at hz
        rcases List.mem_cons.mp hz with rfl | hz
        · exact h2
        · cases h3 : lt (key y) (key z) with
          | true => exact hs.ltTrans _ _ _ h2 h3
          | false =>
            have heq := hs.conn _ _ h3 (hy z hz)
            rw [← heq]
            exact h2
      rw [show stInsert (ascLE lt key) x (y :: ys) = x :: y :: ys by
        simp [stInsert, hxy]]
      rw [stInsert_desc_of_gt lt key x ((y :: ys).reverse) hall]
      simp
    · have hxy0 : ascLE lt key x y = false := Bool.eq_false_iff.mpr hxy
      have hyx : lt (key y) (key x) = true := by simpa [ascLE] using hxy0
      rw [show stInsert (ascLE lt key) x (y :: ys) = y :: stInsert (ascLE lt key) x ys by
        simp [stInsert, hxy0]]
      rw [List.reverse_cons, List.reverse_cons, ih hys hx_ys]
      exact (stInsert_desc_append lt key hs x y ys.reverse hyx).symm

theorem rev_stSort_asc {K : Type} (lt : K → K → Bool) (key : α → K) (hs : LtSpec K lt)
    (l : List α) (hnd : (l.map key).Nodup) :
    (stSort (ascLE lt key) l).reverse = stSort (descLE lt key) l := by
  induction l with
  | nil => rfl
  | cons x xs ih =>
    rw [List.map_cons] at hnd
    rcases List.nodup_cons.mp hnd with ⟨hx, hxs⟩
    have hx' : key x ∉ (stSort (ascLE lt key) xs).map key := by
      intro hh
      exact hx (((stSort_perm _ xs).map key).mem_iff.mp hh)
    simp only [stSort]
    rw [rev_stInsert_asc lt key hs x _ (pairwise_stSort lt key hs xs) hx', ih hxs]

theorem stInsert_congr (le₁ le₂ : α → α → Bool) (h : ∀ a b, le₁ a b = le₂ a b)
    (x : α) (l : List α) : stInsert le₁ x l = stInsert le₂ x l := by
  induction l with
  | nil => rfl
  | cons y ys ih => simp only [stInsert, h, ih]

theorem stSort_congr (le₁ le₂ : α → α → Bool) (h : ∀ a b, le₁ a b = le₂ a b)
    (l : List α) : stSort le₁ l = stSort le₂ l := by
  induction l with
  | nil => rfl
  | cons x xs ih => simp only [stSort, ih, stInsert_congr le₁ le₂ h]

theorem sortPolicies_asc_eq (l : List CharityPolicy) :
    sortPolicies l .published_date .asc =
      stSort (ascLE jsStrLt CharityPolicy.published_date) l := by
  unfold sortPolicies
  apply stSort_congr
  intro a b
  unfold sortComparator fieldCompare strCompare ascLE
  by_cases h1 : jsStrLt a.published_date b.published_date = true
  · have h2 := jsStrLt_spec.asymm _ _ h1
    simp [h1, h2]
    decide
  · have h1' : jsStrLt a.published_date b.published_date = false := Bool.eq_false_iff.mpr h1
    by_cases h2 : jsStrLt b.published_date a.published_date = true
    · simp [h1', h2]
      decide
    · have h2' : jsStrLt b.published_date a.published_date = false := Bool.eq_false_iff.mpr h2
      simp [h1', h2']
      decide

theorem sortPolicies_desc_eq (l : List CharityPolicy) :
    sortPolicies l .published_date .desc =
      stSort (descLE jsStrLt CharityPolicy.published_date) l := by
  unfold sortPolicies
  apply stSort_congr
  intro a b
  unfold sortComparator fieldCompare strCompare descLE
  by_cases h1 : jsStrLt a.published_date b.published_date = true
  · have h2 := jsStrLt_spec.asymm _ _ h1
    simp [h1, h2, Ordering.swap]
    decide
  · have h1' : jsStrLt a.published_date b.published_date = false := Bool.eq_false_iff.mpr h1
    by_cases h2 : jsStrLt b.published_date a.published_date = true
    · simp [h1', h2, Ordering.swap]
      decide
    · have h2' : jsStrLt b.published_date a.published_date = false := Bool.eq_false_iff.mpr h2
      simp [h1', h2', Ordering.swap]
      decide

/-- Counterexample to claim C2 as stated: on two records tied on
`published_date`, sorting ascending and reversing swaps the tied pair,
while the stable descending sort preserves their input order. -/
theorem c2_counterexample :
    (sortPolicies [recTieA, recTieB] .published_date .asc).reverse ≠
      sortPolicies [recTieA, recTieB] .published_date .desc := by decide

/-- Claim C2 (amended): when the records' `published_date` values are
pairwise distinct, sorting by `published_date` ascending and reversing
yields exactly the descending sort.  (With ties the two sides order the
tied block oppositely, because both directions of the stable sort keep
tied records in input order.) -/
theorem c2_sort_reverse (l : List CharityPolicy)
    (hnd : (l.map CharityPolicy.published_date).Nodup) :
    (sortPolicies l .published_date .asc).reverse =
      sortPolicies l .published_date .desc := by
  rw [sortPolicies_asc_eq, sortPolicies_desc_eq]
  exact rev_stSort_asc jsStrLt CharityPolicy.published_date jsStrLt_spec l hnd

/-- Witness for C2 (amended) at a concrete distinct-date record set. -/
theorem c2_witness :
    (List.map CharityPolicy.published_date [recD1, recD2]).Nodup ∧
      (sortPolicies [recD1, recD2] .published_date .asc).reverse =
        sortPolicies [recD1, recD2] .published_date .desc :=
  ⟨by decide, c2_sort_reverse [recD1, recD2] (by decide)⟩

theorem jsSlice_nonneg_length (l : List α) (a b : Int) (ha : 0 ≤ a) (hb : 0 ≤ b) :
    (jsSlice l a b).length = min b.toNat l.length - min a.toNat l.length := by
  unfold jsSlice
  have ha' : ¬ a < 0 := not_lt.mpr ha
  have hb' : ¬ b < 0 := not_lt.mpr hb
  simp only [ha', hb', if_false]
  rw [List.length_drop, List.length_take]
  have h1 : (min a (l.length : Int)).toNat = min a.toNat l.length := by omega
  have h2 : (min b (l.length : Int)).toNat = min b.toNat l.length := by omega
  rw [h1, h2]
  omega

theorem jsSlice_stop_zero (l : List α) (a : Int) : jsSlice l a 0 = [] := by
  unfold jsSlice
  simp

theorem paginate_data_length (l : List CharityPolicy) (p pg : Int)
    (hp : 1 ≤ p) (hpg : 1 ≤ pg) :
    (paginatePolicies l pg p).data.length
      = min (pg * p).toNat l.length - min ((pg - 1) * p).toNat l.length := by
  have hdata : (paginatePolicies l pg p).data
      = jsSlice l ((pg - 1) * p) ((pg - 1) * p + p) := rfl
  have h1 : 0 ≤ (pg - 1) * p := mul_nonneg (by omega) (by omega)
  have h2 : 0 ≤ (pg - 1) * p + p := by omega
  rw [hdata, jsSlice_nonneg_length l _ _ h1 h2,
    show (pg - 1) * p + p = pg * p by ring]

theorem totalPages_spec (l : List CharityPolicy) (p : Int) (hp : 1 ≤ p) :
    (l.length : Int) ≤ (paginatePolicies l 1 p).totalPages * p ∧
      ((paginatePolicies l 1 p).totalPages - 1) * p < (l.length : Int) := by
  have hN : (paginatePolicies l 1 p).totalPages = -((-(l.length : Int)).ediv p) := rfl
  set t : Int := (l.length : Int) with ht
  set q : Int := (-t).ediv p with hq
  have hmod : p * q + (-t).emod p = -t := Int.ediv_add_emod (-t) p
  have h0 : 0 ≤ (-t).emod p := Int.emod_nonneg _ (by omega)
  have h1 : (-t).emod p < p := Int.emod_lt_of_pos _ (by omega)
  rw [hN]
  constructor
  · have e1 : -q * p = -(p * q) := by ring
    rw [e1]
    linarith [hmod, h0]
  · have e2 : (-q - 1) * p = -(p * q) - p := by ring
    rw [e2]
    linarith [hmod, h1]

/-- Counterexample to claim C3 as stated: with `page = -1`, `perPage = 2`
and ten records, the computed start offset `-4` is negative, but the JS
slice counts negative indices from the end of the array and returns a
non-empty slice (elements 6 and 7), not an empty one. -/
theorem c3_counterexample :
    (paginatePolicies (List.replicate 10 recBase) (-1) 2).data ≠ [] := by decide

/-- Claim C3 (amended): with `page = 0` (and any `perPage ≥ 1`) the
paginator returns an empty records slice — the slice window ends at
offset 0 — while `total` still reports the full input length.  For
`page ≤ -1` the negative offsets wrap JS-style and the slice can be
non-empty, so the claim does not extend to all `page ≤ 0`. -/
theorem c3_page_zero (l : List CharityPolicy) (p : Int) (_hp : 1 ≤ p) :
    (paginatePolicies l 0 p).data = [] ∧ (paginatePolicies l 0 p).total = l.length := by
  constructor
  · have hdata : (paginatePolicies l 0 p).data
        = jsSlice l ((0 - 1) * p) ((0 - 1) * p + p) := rfl
    rw [hdata, show (0 - 1 : Int) * p + p = 0 by ring, jsSlice_stop_zero]
  · rfl

/-- Witness for C3 (amended) at a concrete record set and page size. -/
theorem c3_witness :
    (1 : Int) ≤ 1 ∧ (paginatePolicies [recBase] 0 1).data = [] ∧
      (paginatePolicies [recBase] 0 1).total = 1 :=
  ⟨by decide, (c3_page_zero [recBase] 1 (by decide)).1, (c3_page_zero [recBase] 1 (by decide)).2⟩

/-- Claim C4: for `perPage = p ≥ 1`, `totalPages` is the ceiling of
`total / p` (characterized as the least page count covering all records),
the page sizes over pages `1..totalPages` sum to the input length, and
for a non-empty input the last page holds between 1 and `p` records. -/
theorem c4_pagination (l : List CharityPolicy) (p : Int) (hp : 1 ≤ p) :
    ((l.length : Int) ≤ (paginatePolicies l 1 p).totalPages * p ∧
      ((paginatePolicies l 1 p).totalPages - 1) * p < (l.length : Int)) ∧
    (∑ k ∈ Finset.range (paginatePolicies l 1 p).totalPages.toNat,
        (paginatePolicies l ((k : Int) + 1) p).data.length) = l.length ∧
    (0 < l.length →
      1 ≤ (paginatePolicies l ((paginatePolicies l 1 p).totalPages) p).data.length ∧
      (paginatePolicies l ((paginatePolicies l 1 p).totalPages) p).data.length ≤ p.toNat) := by
  obtain ⟨hub, hlb⟩ := totalPages_spec l p hp
  set N : Int := (paginatePolicies l 1 p).totalPages with hNdef
  set t : Nat := l.length with htdef
  set p' : Nat := p.toNat with hpdef
  have hpp : (p' : Int) = p := Int.toNat_of_nonneg (by omega)
  have ht0 : (0 : Int) ≤ (t : Int) := Int.natCast_nonneg t
  have hN0 : 0 ≤ N := by
    by_contra hc
    push_neg at hc
    have hle : N * p ≤ (-1) * p := mul_le_mul_of_nonneg_right (by omega) (by omega)
    have : (-1 : Int) * p = -p := by ring
    linarith [hub]
  refine ⟨⟨hub, hlb⟩, ?_, ?_⟩
  · -- page sizes telescope to the total
    have hsum : ∀ k : Nat, (paginatePolicies l ((k : Int) + 1) p).data.length
        = min ((k + 1) * p') t - min (k * p') t := by
      intro k
      rw [paginate_data_length l p ((k : Int) + 1) hp (by omega)]
      have e1 : (((k : Int) + 1) * p).toNat = (k + 1) * p' := by
        rw [show ((k : Int) + 1) * p = (((k + 1) * p' : Nat) : Int) by push_cast [hpp]; ring,
          Int.toNat_natCast]
      have e2 : ((((k : Int) + 1) - 1) * p).toNat = k * p' := by
        rw [show (((k : Int) + 1) - 1) * p = ((k * p' : Nat) : Int) by push_cast [hpp]; ring,
          Int.toNat_natCast]
      rw [e1, e2]
    have hmono : ∀ k : Nat, min (k * p') t ≤ min ((k + 1) * p') t := fun k =>
      min_le_min (Nat.mul_le_mul_right p' (Nat.le_succ k)) (le_refl t)
    have htele :
        ∑ k ∈ Finset.range N.toNat, (min ((k + 1) * p') t - min (k * p') t)
          = min (N.toNat * p') t - min (0 * p') t :=
      Finset.sum_range_tsub (monotone_nat_of_le_succ hmono) N.toNat
    have hNpt : t ≤ N.toNat * p' := by
      have hcast : (t : Int) ≤ ((N.toNat * p' : Nat) : Int) := by
        rw [Int.natCast_mul, Int.toNat_of_nonneg hN0, hpp]
        exact hub
      exact_mod_cast hcast
    rw [Finset.sum_congr rfl fun k _ => hsum k, htele, Nat.zero_mul, Nat.zero_min,
      min_eq_right hNpt, Nat.sub_zero]
  · intro ht
    have htI : (0 : Int) < (t : Int) := by exact_mod_cast ht
    have hN1 : 1 ≤ N := by
      by_contra hc
      push_neg at hc
      have hle : N * p ≤ 0 * p := mul_le_mul_of_nonneg_right (by omega) (by omega)
      rw [zero_mul] at hle
      linarith [hub]
    rw [paginate_data_length l p N hp hN1]
    set u : Int := (N - 1) * p with hu
    set v : Int := N * p with hv
    have huv : v = u + p := by rw [hu, hv]; ring
    have hu0 : 0 ≤ u := mul_nonneg (by omega) (by omega)
    have hminv : min v.toNat t = t := min_eq_right (by omega)
    have hminu : min u.toNat t = u.toNat := min_eq_left (by omega)
    rw [hminv, hminu]
    exact ⟨by omega, by omega⟩

/-- Witness for C4 at a concrete three-record set with page size 2. -/
theorem c4_witness :
    (1 : Int) ≤ 2 ∧
      (((([recBase, recD1, recD2] : List CharityPolicy).length : Int) ≤
          (paginatePolicies [recBase, recD1, recD2] 1 2).totalPages * 2 ∧
        ((paginatePolicies [recBase, recD1, recD2] 1 2).totalPages - 1) * 2 <
          ((([recBase, recD1, recD2] : List CharityPolicy).length : Int))) ∧
      (∑ k ∈ Finset.range (paginatePolicies [recBase, recD1, recD2] 1 2).totalPages.toNat,
          (paginatePolicies [recBase, recD1, recD2] ((k : Int) + 1) 2).data.length) =
        ([recBase, recD1, recD2] : List CharityPolicy).length ∧
      (0 < ([recBase, recD1, recD2] : List CharityPolicy).length →
        1 ≤ (paginatePolicies [recBase, recD1, recD2]
            ((paginatePolicies [recBase, recD1, recD2] 1 2).totalPages) 2).data.length ∧
        (paginatePolicies [recBase, recD1, recD2]
            ((paginatePolicies [recBase, recD1, recD2] 1 2).totalPages) 2).data.length ≤
          (2 : Int).toNat)) :=
  ⟨by decide, c4_pagination [recBase, recD1, recD2] 2 (by decide)⟩

/-- Claim C6: for a query of length at least 2, the sanctions search caps
the returned `data` list at 50 entries while `count` reports the full
(uncapped) number of matching records. -/
theorem c6_sanctions_cap (l : List CharityPolicy) (nm : String) (regime : Option String)
    (h : 2 ≤ nm.length) :
    (searchSanctions l (some nm) regime).data.length ≤ 50 ∧
      (searchSanctions l (some nm) regime).count
        = some (matchingSanctions l nm regime).length := by
  have hlt : ¬ nm.length < 2 := by omega
  simp only [searchSanctions, hlt, if_false]
  constructor
  · rw [List.length_take]
    exact min_le_left _ _
  · rw [List.length_map]

/-- Witness for C6 on 51 matching sanctions records: the count is the
full 51 while the data list is capped. -/
theorem c6_witness :
    2 ≤ "ab".length ∧
      ((searchSanctions (List.replicate 51 recSanc) (some "ab") none).data.length ≤ 50 ∧
        (searchSanctions (List.replicate 51 recSanc) (some "ab") none).count
          = some (matchingSanctions (List.replicate 51 recSanc) "ab" none).length) :=
  ⟨by decide, c6_sanctions_cap (List.replicate 51 recSanc) "ab" none (by decide)⟩

/-- Counterexample to claim C7 as stated: the too-short guard's response
carries no `count` key at all (reading `count` yields `undefined`), so the
claimed `count = 0` is false at the one-character query. -/
theorem c7_counterexample :
    (searchSanctions [recSanc] (some "s") none).count ≠ some 0 := by decide

/-- Claim C7 (amended): an absent or under-2-character query makes the
sanctions search return the fixed informational success response — empty
data, an explanatory message, no advisory, and no `count` key (the field
is absent rather than 0) — without consulting any record content: the
response is a constant, independent of the record set. -/
theorem c7_too_short (l : List CharityPolicy) (name : Option String) (regime : Option String)
    (h : ∀ s, name = some s → s.length < 2) :
    searchSanctions l name regime = tooShortResponse := by
  cases name with
  | none => rfl
  | some s =>
    have hs := h s rfl
    simp [searchSanctions, hs]

/-- Witness for C7 (amended) at a concrete one-character query. -/
theorem c7_witness : searchSanctions [recSanc] (some "s") none = tooShortResponse :=
  c7_too_short [recSanc] (some "s") none (by intro s hs; cases hs; decide)

theorem foldl_max_init (x : Int) (xs : List Int) : x ≤ xs.foldl max x := by
  induction xs generalizing x with
  | nil => exact le_refl x
  | cons y ys ih => exact le_trans (le_max_left x y) (ih (max x y))

theorem foldl_max_mem (x : Int) (xs : List Int) : xs.foldl max x = x ∨ xs.foldl max x ∈ xs := by
  induction xs generalizing x with
  | nil => left; rfl
  | cons y ys ih =>
    rcases ih (max x y) with h | h
    · rcases max_choice x y with hm | hm
      · left; rw [List.foldl_cons, h, hm]
      · right; rw [List.foldl_cons, h, hm]; exact List.mem_cons_self y ys
    · right; exact List.mem_cons_of_mem y (by rw [List.foldl_cons]; exact h)

theorem foldl_max_ub (x : Int) (xs : List Int) : ∀ y ∈ x :: xs, y ≤ xs.foldl max x := by
  induction xs generalizing x with
  | nil =>
    intro y hy
    rcases List.mem_cons.mp hy with rfl | h
    · exact le_refl y
    · cases h
  | cons z zs ih =>
    intro y hy
    rw [List.foldl_cons]
    rcases List.mem_cons.mp hy with rfl | hy
    · exact le_trans (le_max_left y z) (foldl_max_init (max y z) zs)
    · rcases List.mem_cons.mp hy with rfl | hy
      · exact le_trans (le_max_right x y) (foldl_max_init (max x y) zs)
      · exact ih (max x z) y (List.mem_cons_of_mem _ hy)

/-- Claim C9: for every timestamp function, the analytics summary's
`last_updated` is `none` exactly on the empty record set, and on a
non-empty set it is the timestamp of some record and an upper bound of
all records' timestamps — the maximum, never a zero/epoch default. -/
theorem c9_last_updated (getTime : String → Int) (l : List CharityPolicy) :
    (l = [] → summaryLastUpdated getTime l = none) ∧
    (l ≠ [] → ∃ p ∈ l, summaryLastUpdated getTime l = some (getTime p.last_updated) ∧
      ∀ q ∈ l, getTime q.last_updated ≤ getTime p.last_updated) := by
  constructor
  · intro h
    subst h
    rfl
  · intro h
    cases l with
    | nil => exact absurd rfl h
    | cons p ps =>
      set x : Int := getTime p.last_updated with hx
      set xs : List Int := ps.map fun q => getTime q.last_updated with hxs
      rcases foldl_max_mem x xs with hm | hm
      · refine ⟨p, List.mem_cons_self p ps, ?_, ?_⟩
        · show some (maxTimes x xs) = some x
          rw [show maxTimes x xs = xs.foldl max x from rfl, hm]
        · intro q hq
          rcases List.mem_cons.mp hq with rfl | hq
          · exact le_refl _
          · have hmem : getTime q.last_updated ∈ xs := List.mem_map_of_mem _ hq
            have hub := foldl_max_ub x xs _ (List.mem_cons_of_mem x hmem)
            rw [hm] at hub
            exact hub
      · rcases List.mem_map.mp hm with ⟨q, hq, hqe⟩
        refine ⟨q, List.mem_cons_of_mem p hq, ?_, ?_⟩
        · show some (maxTimes x xs) = some (getTime q.last_updated)
          rw [show maxTimes x xs = xs.foldl max x from rfl, ← hqe]
        · intro r hr
          rcases List.mem_cons.mp hr with rfl | hr
          · rw [hqe]
            exact foldl_max_init x xs
          · have hmem : getTime r.last_updated ∈ xs := List.mem_map_of_mem _ hr
            rw [hqe]
            exact foldl_max_ub x xs _ (List.mem_cons_of_mem x hmem)

/-- Witness for C9 at the empty set and a one-record set. -/
theorem c9_witness :
    summaryLastUpdated timeLen [] = none ∧
      ∃ p ∈ [recBase], summaryLastUpdated timeLen [recBase] = some (timeLen p.last_updated) ∧
        ∀ q ∈ [recBase], timeLen q.last_updated ≤ timeLen p.last_updated :=
  ⟨(c9_last_updated timeLen []).1 rfl, (c9_last_updated timeLen [recBase]).2 (by decide)⟩

/-- Claim C1 (code bug in the analytics route): `byRegulator` pre-seeds
only six of the nine regulator enum values and the `in`-guard skips
records whose regulator is OSCR, CCNI or ASA.  On a record set holding a
single OSCR record the per-regulator object has no OSCR entry and its
counts sum to 0, not to the total 1 — contradicting both the claim and
the route's own `Record<Regulator, number>` type annotation. -/
theorem c1_code_bug :
    computeByRegulator [recOSCR] .OSCR = none ∧
      regCountSum (computeByRegulator [recOSCR]) = 0 ∧
      ([recOSCR] : List CharityPolicy).length = 1 := by decide
